import Mathlib

/-!
A shallow embedding of the multilayer-perceptron training engine of the
`neuralNetwork` package: the `Layer` buffer machinery, `MLPRegressor` /
`MLPClassifier`, the forward pass (`predictZH`), the backward pass
(`backprop`), the minibatch/epoch driver (`fitEpoch`, `Fit`), `Predict`
and `Score`.

Modelling conventions:
* float64 values are idealised as rationals; matrices (gonum `mat.Dense`)
  are lists of rows (`Mat`).
* External collaborators consumed by the engine - the activation and loss
  registries (`NewActivation`, `NewLoss`), the optimizer factory
  (`base.Optimizer`), the random source (`rand.NormFloat64`), joint row
  shuffling (`base.MatShuffle`), the metrics (`R2Score`, `AccuracyScore`)
  and the gonum matrix norm (`mat.Norm(.,2)`) - are fields of an
  `Externals` record, modelled from the spec sections 2 and 6, which fix
  their contracts but not their numeric bodies.  The one contract the spec
  pins numerically (the "square" loss gradient writes `Ypred - Ytrue`
  into the delta buffer) is modelled concretely in `lossGradM`.
* Stateful Go buffers become explicit state passing; slice reuse inside
  `initOutputs` (contents surviving a resize) is modelled by `mkSlice`.
-/

namespace NN

/-- A matrix of the model: a list of rows of rationals (gonum `mat.Dense`). -/
abbrev Mat := List (List ℚ)

/-- Row dimensions of a matrix: the list of its row lengths. -/
def dims (A : Mat) : List ℕ := A.map List.length

/-- Dot product of two rows. -/
def dotQ (a b : List ℚ) : ℚ := (List.zipWith (fun x y => x * y) a b).sum

/-- Transpose (gonum `Matrix.T`). -/
def transposeM (A : Mat) : Mat :=
  match A with
  | [] => []
  | r :: _ => (List.range r.length).map (fun j => A.map (fun row => row.getD j 0))

/-- Matrix product (gonum `Mul` / `base.MatParallelMul`). -/
def matMul (A B : Mat) : Mat :=
  A.map (fun row => (transposeM B).map (fun col => dotQ row col))

/-- Elementwise combination of two equally-shaped matrices. -/
def matZip (f : ℚ → ℚ → ℚ) (A B : Mat) : Mat := List.zipWith (List.zipWith f) A B

/-- Elementwise difference (`mat.Dense.Sub`). -/
def matSub (A B : Mat) : Mat := matZip (fun x y => x - y) A B

/-- Elementwise sum (`mat.Dense.Add`). -/
def matAdd (A B : Mat) : Mat := matZip (fun x y => x + y) A B

/-- Hadamard product (`mat.Dense.MulElem` / `matMulElem`). -/
def mulElem (A B : Mat) : Mat := matZip (fun x y => x * y) A B

/-- Elementwise function application (`matApply`). -/
def matApplyQ (f : ℚ → ℚ) (A : Mat) : Mat := A.map (List.map f)

/-- Scaling by a scalar (`mat.Dense.Scale` / `matScale`). -/
def scaleM (c : ℚ) (A : Mat) : Mat := matApplyQ (fun x => c * x) A

/-- The `onesAddedMat` view: a constant-1 column prepended. -/
def onesAdded (A : Mat) : Mat := A.map (fun r => 1 :: r)

/-- The `MatFirstColumnRemoved` view. -/
def removeFirstCol (A : Mat) : Mat := A.map (List.drop 1)

/-- The `base.MatFirstRowZeroed` view. -/
def firstRowZeroed (A : Mat) : Mat :=
  match A with
  | [] => []
  | r :: rs => (r.map (fun _ => 0)) :: rs

/-- `mat.Sum`. -/
def matSumQ (A : Mat) : ℚ := (A.map (fun r => r.sum)).sum

/-- The squared Frobenius norm, i.e. the square of gonum `mat.Norm(A, 2)`. -/
def sqnormQ (A : Mat) : ℚ := matSumQ (mulElem A A)

/-- `sgn` from the source (lines 431-439). -/
def sgnQ (x : ℚ) : ℚ := if 0 < x then 1 else if x < 0 then -1 else 0

/-- `math.Abs`. -/
def absQ (x : ℚ) : ℚ := if x < 0 then -x else x

/-- `mat.NewDense(r, c, nil)`: a zeroed matrix. -/
def zeroMat (r c : ℕ) : Mat := List.replicate r (List.replicate c 0)

/-- The `Layer` struct (lines 18-25).  `Ypred` is not stored: in the source it
is `base.MatDenseFirstColumnRemoved(NextX1)`, a writable view of the augmented
output buffer, modelled by `LayerM.Ypred` and `setYpred` below.  The per-layer
optimizer instance state is the abstract `opt : σ`. -/
structure LayerM (σ : Type) where
  Activation : String
  Theta : Mat
  Grad : Mat
  Update : Mat
  X1 : Mat
  Ytrue : Mat
  Z : Mat
  NextX1 : Mat
  Ydiff : Mat
  Hgrad : Mat
  opt : σ
  deriving DecidableEq

/-- The `MLPRegressor` struct (lines 71-87).  `J` is `Option ℚ`: `none` models
the `math.Inf(1)` sentinel assigned at the start of `Fit`; the flat
`thetaSlice`/`gradSlice`/`updateSlice` arenas are represented by the per-layer
matrices they back.  The `Optimizer` factory field lives in `Externals`. -/
structure MLPRegressorM (σ : Type) where
  Shuffle : Bool
  LossName : String
  Activation : String
  HiddenLayerSizes : List ℕ
  Layers : List (LayerM σ)
  Alpha : ℚ
  L1Ratio : ℚ
  GradientClipping : ℚ
  Epochs : ℤ
  MiniBatchSize : ℤ
  Loss : String
  JFirst : ℚ
  J : Option ℚ
  deriving DecidableEq

/-- Modelled from the spec: the external collaborators of sections 2 and 6 -
activation strategies (`actF`, `actG`), the loss registry for the kinds the
spec leaves numerically open (`lossVal`, `lossGradX`), the gonum matrix 2-norm
(`norm2`), the per-layer optimizer factory and its stateful two-buffer
contract (`newOpt`, `getUpdate` with internal state `σ`), the random weight
source (`rnd`, a deterministic stream on state `ρ`, one fixed draw of
`rand.NormFloat64`), joint row shuffling (`shuffle`, consuming the same random
state), and the metrics (`r2`, `acc`). -/
structure Externals (σ ρ : Type) where
  actF : String → ℚ → ℚ
  actG : String → ℚ → ℚ → ℚ
  lossVal : String → Mat → Mat → ℚ
  lossGradX : String → Mat → Mat → Mat
  norm2 : Mat → ℚ
  newOpt : Unit → σ
  getUpdate : σ → Mat → Mat × σ
  rnd : ρ → ℚ × ρ
  shuffle : ρ → Mat → Mat → Mat × Mat × ρ
  r2 : Mat → Mat → ℚ
  acc : Mat → Mat → ℚ

variable {σ ρ : Type}

/-- `Layer.Ypred`: the `base.MatDenseFirstColumnRemoved(L.NextX1)` view
(line 61). -/
def LayerM.Ypred (L : LayerM σ) : Mat := removeFirstCol L.NextX1

/-- Writing the prediction matrix through the `Ypred` view: columns `1..` of
`NextX1` receive the values, column 0 is untouched. -/
def setYpred (L : LayerM σ) (M : Mat) : LayerM σ :=
  { L with NextX1 := List.zipWith (fun r p => r.take 1 ++ p) L.NextX1 M }

/-- The slice handling of `initOutputs.mk` (lines 41-49): when the backing
slice capacity suffices the slice is re-sliced to `size` keeping its contents,
otherwise a fresh zeroed slice is allocated.  (Slices here have
length = capacity, as produced by `make`.) -/
def mkSlice (old : List ℚ) (size : ℕ) : List ℚ :=
  if old.length < size then List.replicate size 0 else old.take size

/-- `mat.NewDense(nR, nC, s)`: view a flat slice as a dense matrix. -/
def toMat (nR nC : ℕ) (s : List ℚ) : Mat :=
  (List.range nR).map (fun i => (List.range nC).map (fun j => s.getD (i * nC + j) 0))

/-- `Layer.initOutputs` (lines 39-65): (re)size the per-batch scratch buffers
`Ytrue`, `Z`, `NextX1`, `Ydiff`, `Hgrad`, set column 0 of `NextX1` to 1 for
every row, and bind `X1` to the previous layer's `NextX1` when one exists.
`Ypred` needs no update: it is always the `removeFirstCol` view of `NextX1`. -/
def initOutputs (L : LayerM σ) (nSamples nOutputs : ℕ) (prev : Option Mat) : LayerM σ :=
  let ytrue := toMat nSamples nOutputs (mkSlice L.Ytrue.flatten (nSamples * nOutputs))
  let z := toMat nSamples nOutputs (mkSlice L.Z.flatten (nSamples * nOutputs))
  let nextX1 := toMat nSamples (1 + nOutputs) (mkSlice L.NextX1.flatten (nSamples * (1 + nOutputs)))
  let ydiff := toMat nSamples nOutputs (mkSlice L.Ydiff.flatten (nSamples * nOutputs))
  let hgrad := toMat nSamples nOutputs (mkSlice L.Hgrad.flatten (nSamples * nOutputs))
  let nextX1 := nextX1.map (fun row =>
    match row with
    | [] => []
    | _ :: t => 1 :: t)
  { L with Ytrue := ytrue, Z := z, NextX1 := nextX1, Ydiff := ydiff, Hgrad := hgrad,
           X1 := (match prev with | none => L.X1 | some P => P) }

/-- The layer loop of `predictZH` (lines 341-374): for each layer, in order,
determine the input `Xl` (the feature matrix for layer 0, else the previous
layer's `Ypred`), run `initOutputs`, compute `Z = [1 Xl] · Theta` and write
`activation(Z)` through the `Ypred` view. -/
def forwardRec (E : Externals σ ρ) (nSamples : ℕ) :
    Mat → Option Mat → List (LayerM σ) → List (LayerM σ)
  | _, _, [] => []
  | Xl, prev, L :: rest =>
    let nOutputs := (L.Theta.headD []).length
    let L1 := initOutputs L nSamples nOutputs prev
    let Z := matMul (onesAdded Xl) L1.Theta
    let L2 := setYpred { L1 with Z := Z } (matApplyQ (E.actF L1.Activation) Z)
    L2 :: forwardRec E nSamples (LayerM.Ypred L2) (some L2.NextX1) rest

/-- `predictZH` (lines 338-380): the forward pass.  Returns the updated
network and the copy of the last layer's `Ypred` that the source writes into
the caller's `Y` buffer.  (The optional raw-`Z` out-parameter has no caller
inside the package and is omitted.) -/
def predictZH (E : Externals σ ρ) (regr : MLPRegressorM σ) (X : Mat) :
    MLPRegressorM σ × Mat :=
  let ls := forwardRec E X.length X none regr.Layers
  ({ regr with Layers := ls }, (ls.getLast?.map LayerM.Ypred).getD [])

/-- Modelled from the spec: the loss registry `NewLoss` is not under `src/`.
The spec (section 4.3) pins the one behaviour `backprop` relies on for the
non-terminal layers: the "square" loss writes the gradient `Ypred - Ytrue`
into the caller's delta buffer.  The remaining kinds stay the abstract
`Externals.lossGradX`. -/
def lossGradM (E : Externals σ ρ) (name : String) (yt yp : Mat) : Mat :=
  if name = "square" then matSub yp yt else E.lossGradX name yt yp

/-- The regularization block of `backprop` (lines 292-310): when `Alpha > 0`,
for `ThetaReg` = the weights with the bias row zeroed, the L1 part (guarded by
`L1Ratio > 0`) adds `Alpha·L1Ratio/nSamples · sum|ThetaReg|` to the loss and
`(Alpha/nSamples) · sgn(ThetaReg)` to the gradient; the L2 part (guarded by
`L1Ratio < 1`) adds `Alpha·(1-L1Ratio)/2/nSamples · sum(ThetaReg²)` to the
loss and `(Alpha/nSamples) · ThetaReg` to the gradient. -/
def regularizeLayer (alpha l1ratio : ℚ) (nSamples : ℕ) (J : ℚ) (Grad Theta : Mat) : ℚ × Mat :=
  if 0 < alpha then
    let ThetaReg := firstRowZeroed Theta
    let p1 :=
      if 0 < l1ratio then
        (alpha * l1ratio / (nSamples : ℚ) * matSumQ (matApplyQ absQ ThetaReg),
         matAdd Grad (scaleM (alpha / (nSamples : ℚ)) (matApplyQ sgnQ ThetaReg)))
      else ((0 : ℚ), Grad)
    let p2 :=
      if l1ratio < 1 then
        (p1.1 + alpha * (1 - l1ratio) / 2 / (nSamples : ℚ) * matSumQ (mulElem ThetaReg ThetaReg),
         matAdd p1.2 (scaleM (alpha / (nSamples : ℚ)) ThetaReg))
      else p1
    (J + p2.1, p2.2)
  else (J, Grad)

/-- The regularization path "entirely skipped": the comparator the spec's
regularization-boundary property asks for (a `backprop` whose lines 292-310
are removed, leaving loss and gradient untouched). -/
def regFnSkip : ℚ → ℚ → ℕ → ℚ → Mat → Mat → ℚ × Mat := fun _ _ _ J G _ => (J, G)

/-- The gradient-clipping step of `backprop` (lines 312-317), with `gnorm`
standing for the externally computed `mat.Norm(Grad, 2)`: when a positive
clip threshold is configured and the norm exceeds it, the whole gradient is
scaled by `clip/gnorm`. -/
def clipGradient (clip gnorm : ℚ) (G : Mat) : Mat :=
  if 0 < clip then (if clip < gnorm then scaleM (clip / gnorm) G else G) else G

/-- The per-layer tail of the `backprop` loop (lines 281-323), run for every
layer once its `Ytrue`/`Ydiff` are set: recompute `Hgrad` from `Z`/`Ypred`,
fold it into `Ydiff`, form `Grad = [1 Xl]ᵀ · Ydiff`, apply regularization
(through `regFn`) and clipping, obtain the optimizer update and add it to
`Theta`. -/
def layerTailG (regFn : ℚ → ℚ → ℕ → ℚ → Mat → Mat → ℚ × Mat) (E : Externals σ ρ)
    (regr : MLPRegressorM σ) (nSamples : ℕ) (Xl : Mat) (L : LayerM σ) (J : ℚ) :
    LayerM σ × ℚ :=
  let Hgrad := matZip (E.actG L.Activation) L.Z (LayerM.Ypred L)
  let Ydiff := mulElem L.Ydiff Hgrad
  let Grad := matMul (transposeM (onesAdded Xl)) Ydiff
  let p := regFn regr.Alpha regr.L1Ratio nSamples J Grad L.Theta
  let Grad2 := clipGradient regr.GradientClipping (E.norm2 p.2) p.2
  let u := E.getUpdate L.opt Grad2
  ({ L with Hgrad := Hgrad, Ydiff := Ydiff, Grad := Grad2, Update := u.1,
            opt := u.2, Theta := matAdd L.Theta u.1 }, p.1)

/-- The output-layer head of the `backprop` loop (lines 252-255 and 271-276):
`Ytrue` is a copy of `Y`, the seed `Ydiff = Ypred - Y` is written and then
overwritten by the loss gradient; the loss value, scaled by the minibatch
fraction, becomes `J`.  The loss name switches from "log" to "cross-entropy"
when the output width is 1. -/
def outputHeadStep (E : Externals σ ρ) (regr : MLPRegressorM σ) (nOutputs : ℕ)
    (mbPart : ℚ) (Y : Mat) (L : LayerM σ) : LayerM σ × ℚ :=
  let lastLoss := if regr.Loss = "log" ∧ nOutputs = 1 then "cross-entropy" else regr.Loss
  let J := E.lossVal lastLoss Y (LayerM.Ypred L) * mbPart
  let Ydiff := lossGradM E lastLoss Y (LayerM.Ypred L)
  ({ L with Ytrue := Y, Ydiff := Ydiff }, J)

/-- The non-terminal-layer head of the `backprop` loop (lines 256-268 and
278): `Ydiff := (next.Ydiff · next.Thetaᵀ with the first column of the
transpose removed) ⊙ L.Hgrad` (the layer's own `Hgrad` buffer, whose contents
at this point predate the pass), then `Ytrue := Ypred - Ydiff` and the
"square" loss rewrites `Ydiff` as `Ypred - Ytrue`.  `next` is the layer
above as `backprop` already processed it. -/
def hiddenHeadStep (E : Externals σ ρ) (L next : LayerM σ) : LayerM σ :=
  let Yd1 := matMul next.Ydiff (removeFirstCol (transposeM next.Theta))
  let Yd2 := mulElem Yd1 L.Hgrad
  let Ytrue := matSub (LayerM.Ypred L) Yd2
  let Yd3 := lossGradM E "square" Ytrue (LayerM.Ypred L)
  { L with Ytrue := Ytrue, Ydiff := Yd3 }

/-- The layer loop of `backprop` (lines 241-324), from the output layer down
to layer 0, written as structural recursion: the layers above are processed
first (so a non-terminal layer sees the already-updated state of the layer
above it), and each layer's input `Xl` is the `Ypred` of the layer below
(unchanged by the backward pass) or the minibatch `X` for layer 0. -/
def backRecG (regFn : ℚ → ℚ → ℕ → ℚ → Mat → Mat → ℚ × Mat) (E : Externals σ ρ)
    (regr : MLPRegressorM σ) (nSamples nOutputs : ℕ) (mbPart : ℚ) (Y : Mat) :
    Mat → List (LayerM σ) → List (LayerM σ) × ℚ
  | _, [] => ([], 0)
  | Xl, [L] =>
    let h := outputHeadStep E regr nOutputs mbPart Y L
    let t := layerTailG regFn E regr nSamples Xl h.1 h.2
    ([t.1], t.2)
  | Xl, L :: L2 :: rest =>
    let r := backRecG regFn E regr nSamples nOutputs mbPart Y (LayerM.Ypred L) (L2 :: rest)
    match r.1 with
    | [] => (L :: r.1, r.2)
    | next :: _ =>
      let t := layerTailG regFn E regr nSamples Xl (hiddenHeadStep E L next) r.2
      (t.1 :: r.1, t.2)

/-- `backprop` (lines 234-326), parametric in the regularization block:
computes the minibatch fraction and the output width, runs the reverse layer
loop and returns the updated network with the accumulated loss. -/
def backpropG (regFn : ℚ → ℚ → ℕ → ℚ → Mat → Mat → ℚ × Mat) (E : Externals σ ρ)
    (regr : MLPRegressorM σ) (X Y : Mat) (epoch miniBatchLen nSamples : ℕ) :
    MLPRegressorM σ × ℚ :=
  let _ := epoch
  let mbPart : ℚ := (miniBatchLen : ℚ) / (nSamples : ℚ)
  let nOutputs := (Y.headD []).length
  let p := backRecG regFn E regr nSamples nOutputs mbPart Y X regr.Layers
  ({ regr with Layers := p.1 }, p.2)

/-- `backprop` as the source has it. -/
def backprop (E : Externals σ ρ) (regr : MLPRegressorM σ) (X Y : Mat)
    (epoch miniBatchLen nSamples : ℕ) : MLPRegressorM σ × ℚ :=
  backpropG regularizeLayer E regr X Y epoch miniBatchLen nSamples

/-- `fitMiniBatch` (lines 227-231): one forward pass then one backward pass. -/
def fitMiniBatchG (regFn : ℚ → ℚ → ℕ → ℚ → Mat → Mat → ℚ × Mat) (E : Externals σ ρ)
    (regr : MLPRegressorM σ) (Xm Ym : Mat) (epoch miniBatchLen nSamples : ℕ) :
    MLPRegressorM σ × ℚ :=
  backpropG regFn E (predictZH E regr Xm).1 Xm Ym epoch miniBatchLen nSamples

/-- The minibatch window loop of `fitEpoch` (lines 204-218), with the loop
variables `miniBatchStart`/`miniBatchEnd` made explicit and a fuel argument
(`nSamples` suffices: every iteration advances `start` by at least one row).
Windows are row slices `[start, e)` of the epoch's data; the running state is
the regressor and the loss sum. -/
def fitBatchesG (regFn : ℚ → ℚ → ℕ → ℚ → Mat → Mat → ℚ × Mat) (E : Externals σ ρ)
    (Xf Yf : Mat) (epoch nSamples : ℕ) :
    ℕ → ℕ → ℕ → MLPRegressorM σ × ℚ → MLPRegressorM σ × ℚ
  | 0, _, _, st => st
  | fuel + 1, start, e, st =>
    if start < nSamples then
      let len := e - start
      let Xm := (Xf.drop start).take len
      let Ym := (Yf.drop start).take len
      let p := fitMiniBatchG regFn E st.1 Xm Ym epoch len nSamples
      let e2 := if nSamples < e + len then nSamples else e + len
      fitBatchesG regFn E Xf Yf epoch nSamples fuel (start + len) e2 (p.1, st.2 + p.2)
    else st

/-- `fitEpoch` (lines 186-224): read the sample count, optionally shuffle `X`
and `Y` jointly, pick the minibatch size (the configured one when in
`(0, nSamples]`, `nSamples` when the configured one exceeds it, otherwise
`min nSamples 200`), run the window loop, store the summed loss in `J` and,
when `epoch == 1`, in `JFirst`. -/
def fitEpochG (regFn : ℚ → ℚ → ℕ → ℚ → Mat → Mat → ℚ × Mat) (E : Externals σ ρ)
    (regr : MLPRegressorM σ) (Xfull Yfull : Mat) (r0 : ρ) (epoch : ℕ) :
    MLPRegressorM σ × Mat × Mat × ρ :=
  let nSamples := Xfull.length
  let sh := if regr.Shuffle then E.shuffle r0 Xfull Yfull else (Xfull, Yfull, r0)
  let mbs : ℕ :=
    if 0 < regr.MiniBatchSize ∧ regr.MiniBatchSize ≤ (nSamples : ℤ) then regr.MiniBatchSize.toNat
    else if (nSamples : ℤ) < regr.MiniBatchSize then nSamples
    else min nSamples 200
  let p := fitBatchesG regFn E sh.1 sh.2.1 epoch nSamples nSamples 0 mbs (regr, 0)
  let regr1 := { p.1 with J := some p.2 }
  let regr2 := if epoch = 1 then { regr1 with JFirst := p.2 } else regr1
  (regr2, sh.1, sh.2.1, sh.2.2)

/-- `fitEpoch` as the source has it. -/
def fitEpochM (E : Externals σ ρ) (regr : MLPRegressorM σ) (Xfull Yfull : Mat)
    (r0 : ρ) (epoch : ℕ) : MLPRegressorM σ × Mat × Mat × ρ :=
  fitEpochG regularizeLayer E regr Xfull Yfull r0 epoch

/-- The random-weight stream: draw `n` values (`Theta.Apply` with the supplied
generator, line 31). -/
def drawList (E : Externals σ ρ) : ℕ → ρ → List ℚ × ρ
  | 0, r => ([], r)
  | n + 1, r =>
    let p := E.rnd r
    let q := drawList E n p.2
    (p.1 :: q.1, q.2)

/-- Draw a `rows × cols` weight matrix, row-major as `Apply` iterates. -/
def drawMat (E : Externals σ ρ) : ℕ → ℕ → ρ → Mat × ρ
  | 0, _, r => ([], r)
  | k + 1, cols, r =>
    let p := drawList E cols r
    let q := drawMat E k cols p.2
    (p.1 :: q.1, q.2)

/-- `NewLayer` (lines 28-37): randomly initialized `Theta`, zeroed `Grad` and
`Update` arena windows, a fresh optimizer instance; scratch buffers are nil
until `initOutputs` runs. -/
def newLayerM (E : Externals σ ρ) (inputs outputs : ℕ) (activation : String) (r : ρ) :
    LayerM σ × ρ :=
  let p := drawMat E inputs outputs r
  ({ Activation := activation, Theta := p.1, Grad := zeroMat inputs outputs,
     Update := zeroMat inputs outputs, X1 := [], Ytrue := [], Z := [], NextX1 := [],
     Ydiff := [], Hgrad := [], opt := E.newOpt () }, p.2)

/-- The hidden-layer loop of `allocLayers` (lines 142-151): layer `i` has
`1 + prevOutputs` inputs and the configured hidden activation; returns the
layers, the width feeding the output layer, and the random state. -/
def allocHidden (E : Externals σ ρ) (activation : String) :
    ℕ → List ℕ → ρ → List (LayerM σ) × ℕ × ρ
  | prevOutputs, [], r => ([], prevOutputs, r)
  | prevOutputs, outputs :: rest, r =>
    let p := newLayerM E (1 + prevOutputs) outputs activation r
    let q := allocHidden E activation outputs rest p.2
    (p.1 :: q.1, q.2.1, q.2.2)

/-- `allocLayers` (lines 128-166): hidden layers sized from
`HiddenLayerSizes`, then the output layer, whose activation is "logistic"
when the `LossName` field is "cross-entropy" or "log" and the configured
hidden activation otherwise. -/
def allocLayersM (E : Externals σ ρ) (regr : MLPRegressorM σ) (nFeatures nOutputs : ℕ)
    (r : ρ) : MLPRegressorM σ × ρ :=
  let h := allocHidden E regr.Activation nFeatures regr.HiddenLayerSizes r
  let lastActivation :=
    if regr.LossName = "cross-entropy" ∨ regr.LossName = "log" then "logistic"
    else regr.Activation
  let p := newLayerM E (1 + h.2.1) nOutputs lastActivation h.2.2
  ({ regr with Layers := h.1 ++ [p.1] }, p.2)

/-- `Fit` line 177: `regr.Epochs = 1e6 / nSamples`.  The untyped constant
`1e6` converts to Go `int`, so this is integer division, which truncates. -/
def defaultEpochs (nSamples : ℕ) : ℕ := 1000000 / nSamples

/-- `Fit` (lines 169-183), parametric in the regularization block: allocate
the layer stack, set the loss sentinel to infinity (`J := none`), default the
epoch count to `1e6 / nSamples` when it is unset or non-positive, and fold
`fitEpoch` over epochs `0, 1, ..., Epochs-1`. -/
def fitG (regFn : ℚ → ℚ → ℕ → ℚ → Mat → Mat → ℚ × Mat) (E : Externals σ ρ)
    (regr : MLPRegressorM σ) (X Y : Mat) (r0 : ρ) : MLPRegressorM σ × Mat × Mat × ρ :=
  let nSamples := X.length
  let nFeatures := (X.headD []).length
  let nOutputs := (Y.headD []).length
  let a := allocLayersM E regr nFeatures nOutputs r0
  let regr1 : MLPRegressorM σ := { a.1 with J := none }
  let regr2 : MLPRegressorM σ :=
    if regr1.Epochs ≤ 0 then { regr1 with Epochs := (defaultEpochs nSamples : ℤ) } else regr1
  (List.range regr2.Epochs.toNat).foldl
    (fun st epoch => fitEpochG regFn E st.1 st.2.1 st.2.2.1 st.2.2.2 epoch)
    (regr2, X, Y, a.2)

/-- `Fit` as the source has it. -/
def fit (E : Externals σ ρ) (regr : MLPRegressorM σ) (X Y : Mat) (r0 : ρ) :
    MLPRegressorM σ × Mat × Mat × ρ :=
  fitG regularizeLayer E regr X Y r0

/-- `Fit` with the regularization code path entirely skipped: the refinement
comparator of the spec's regularization-boundary property. -/
def fitNoReg (E : Externals σ ρ) (regr : MLPRegressorM σ) (X Y : Mat) (r0 : ρ) :
    MLPRegressorM σ × Mat × Mat × ρ :=
  fitG regFnSkip E regr X Y r0

/-- `NewMLPRegressor` (lines 97-116): defaults `relu`/`adam`, `Shuffle` on,
`Loss` "square" switched to "log" for any non-identity activation.  The
solver name selects the external optimizer factory (`Externals.newOpt`) and
is not otherwise recorded. -/
def NewMLPRegressorM (σ : Type) (hiddenLayerSizes : List ℕ) (activation _solver : String)
    (alpha : ℚ) : MLPRegressorM σ :=
  let act := if activation = "" then "relu" else activation
  let r : MLPRegressorM σ :=
    { Shuffle := true, LossName := "", Activation := act,
      HiddenLayerSizes := hiddenLayerSizes, Layers := [], Alpha := alpha, L1Ratio := 0,
      GradientClipping := 0, Epochs := 0, MiniBatchSize := 0, Loss := "square",
      JFirst := 0, J := some 0 }
  if act = "identity" then r else { r with Loss := "log" }

/-- `NewMLPClassifier` (lines 402-408): an `MLPRegressor` with `Loss` forced
to "log" (the embedded-struct relation is flattened in the model). -/
def NewMLPClassifierM (σ : Type) (hiddenLayerSizes : List ℕ) (activation solver : String)
    (alpha : ℚ) : MLPRegressorM σ :=
  { NewMLPRegressorM σ hiddenLayerSizes activation solver alpha with Loss := "log" }

/-- The threshold of `MLPClassifier.Predict` (lines 413-420): `y >= .5`
maps to 1, anything below to 0. -/
def thresholdQ (y : ℚ) : ℚ := if (1 : ℚ)/2 ≤ y then 1 else 0

/-- `MLPClassifier.Predict` (lines 411-422): run the forward pass, then apply
the 0.5 threshold elementwise to the caller's `Y` buffer. -/
def MLPClassifierPredict (E : Externals σ ρ) (regr : MLPRegressorM σ) (X : Mat) :
    MLPRegressorM σ × Mat :=
  let r := predictZH E regr X
  (r.1, (r.2).map (List.map thresholdQ))

/-- `Score` (lines 383-392): size a fresh zeroed `Ypred` from the caller's
`Y`, run `Predict(X, Y)` - which overwrites `Y` with the network's
predictions - and hand `(Y, Ypred)` to `R2Score` when the loss is "square",
`AccuracyScore` otherwise.  Returns the updated network, the overwritten `Y`
and the score. -/
def ScoreM (E : Externals σ ρ) (regr : MLPRegressorM σ) (X Y : Mat) :
    MLPRegressorM σ × Mat × ℚ :=
  let nSamples := Y.length
  let nOutputs := (Y.headD []).length
  let Ypred0 := zeroMat nSamples nOutputs
  let r := predictZH E regr X
  (r.1, r.2, (if regr.Loss = "square" then E.r2 else E.acc) r.2 Ypred0)

/-- A concrete instantiation of the external collaborators for the concrete
runs below: every activation behaves as "identity" (value `z`, derivative 1),
the "square" loss value is `Σ (yp - yt)²`, the remaining loss kinds get the
difference gradient, the optimizer returns a zero update, the random stream
constantly draws 1, shuffling is the identity permutation and the metrics
return 0. -/
def E1 : Externals Unit Unit :=
  { actF := fun _ z => z
    actG := fun _ _ _ => 1
    lossVal := fun name yt yp => if name = "square" then sqnormQ (matSub yp yt) else 0
    lossGradX := fun _ yt yp => matSub yp yt
    norm2 := fun _ => 0
    newOpt := fun _ => ()
    getUpdate := fun s g => (matApplyQ (fun _ => 0) g, s)
    rnd := fun s => (1, s)
    shuffle := fun s X Y => (X, Y, s)
    r2 := fun _ _ => 0
    acc := fun _ _ => 0 }

/-- A concrete network configuration: one hidden layer of width 1, identity
activation, square loss, shuffling off, a single epoch, automatic minibatch
size, no regularization, no clipping. -/
def rShared : MLPRegressorM Unit :=
  { Shuffle := false, LossName := "", Activation := "identity", HiddenLayerSizes := [1],
    Layers := [], Alpha := 0, L1Ratio := 0, GradientClipping := 0, Epochs := 1,
    MiniBatchSize := 0, Loss := "square", JFirst := 0, J := some 0 }

/-- An empty layer record, used as the out-of-range default of `List.getD`. -/
def emptyLayer : LayerM Unit :=
  { Activation := "", Theta := [], Grad := [], Update := [], X1 := [], Ytrue := [],
    Z := [], NextX1 := [], Ydiff := [], Hgrad := [], opt := () }

/-- The concrete one-minibatch run refuting C1: allocate the `rShared` network
(all weights 1, scratch buffers zeroed), run one forward pass on `X = [[1]]`
and one backward pass against `Y = [[0]]`. -/
def cexRunC1 : MLPRegressorM Unit :=
  (backprop E1 ((predictZH E1 ((allocLayersM E1 rShared 1 1 ()).1) [[1]]).1)
    [[1]] [[0]] 0 1 1).1

/-- Row-level cancellation: `a - (a - b) = b` elementwise when the rows have
equal length. -/
theorem zipSub_cancel (a : List ℚ) : ∀ b : List ℚ, b.length = a.length →
    List.zipWith (fun x y => x - y) a (List.zipWith (fun x y => x - y) a b) = b := by
  induction a with
  | nil =>
    intro b hb
    simp only [List.length_nil, List.length_eq_zero] at hb
    simp [hb]
  | cons x xs ih =>
    intro b hb
    cases b with
    | nil => simp at hb
    | cons y ys =>
      simp only [List.length_cons, Nat.succ.injEq] at hb
      simp [ih ys hb]

/-- Matrix-level cancellation: `A - (A - B) = B` when `B` has the shape of
`A`. -/
theorem matSub_cancel (A : Mat) : ∀ B : Mat, dims B = dims A →
    matSub A (matSub A B) = B := by
  induction A with
  | nil =>
    intro B hB
    cases B with
    | nil => rfl
    | cons b bs => simp [dims] at hB
  | cons r rs ih =>
    intro B hB
    cases B with
    | nil => simp [dims] at hB
    | cons b bs =>
      simp only [dims, List.map_cons, List.cons.injEq] at hB
      have h2 := ih bs hB.2
      simp only [matSub, matZip, List.zipWith_cons_cons] at h2 ⊢
      rw [zipSub_cancel r b hB.1, h2]

/-- C1 (counterexample).  The claim computes the non-output layer's delta as
`(delta_{l+1} · weights_{l+1}ᵀ without the bias row) ⊙ activationGradient_{l+1}`
with the activation gradient freshly computed while processing layer `l+1`;
the code (line 264) instead multiplies by layer `l`'s own `Hgrad` buffer,
whose contents predate the pass (zero right after allocation).  In the
concrete run `cexRunC1` the hidden layer's stored pseudo-target
`Ytrue = [[2]]`, while `Ypred - (delta_1 · W_1ᵀ[no bias] ⊙ Hgrad_1)` with the
output layer's fresh `Hgrad_1 = [[1]]` would be `[[-1]]`. -/
theorem backprop_staleHgrad_counterexample :
    (cexRunC1.Layers.getD 0 emptyLayer).Ytrue
      ≠ matSub (LayerM.Ypred (cexRunC1.Layers.getD 0 emptyLayer))
          (mulElem
            (matMul (cexRunC1.Layers.getD 1 emptyLayer).Ydiff
              (removeFirstCol (transposeM (cexRunC1.Layers.getD 1 emptyLayer).Theta)))
            ((cexRunC1.Layers.getD 1 emptyLayer).Hgrad)) := by with_unfolding_all decide

/-- C1 (amended).  For every non-output layer `l`, with `next` the state of
layer `l+1` as already processed by this backward pass, the head of the layer
step computes `delta_l = (next.Ydiff · next.Thetaᵀ with the bias row of
`next.Theta` excluded) ⊙ Hgrad_l`, where `Hgrad_l` is layer `l`'s OWN
activation-gradient buffer as it stood when the pass reached layer `l` (its
value from the previous backward pass; zero after a fresh allocation) - not
the fresh activation gradient of layer `l+1`; the pseudo-target
`Ytrue = Ypred - delta_l` is formed, and the "square" loss writes that same
`delta_l` back into layer `l`'s delta buffer. -/
theorem hiddenHeadStep_delta (E : Externals σ ρ) (L next : LayerM σ)
    (hdim : dims (mulElem (matMul next.Ydiff (removeFirstCol (transposeM next.Theta))) L.Hgrad)
      = dims (LayerM.Ypred L)) :
    (hiddenHeadStep E L next).Ytrue
      = matSub (LayerM.Ypred L)
          (mulElem (matMul next.Ydiff (removeFirstCol (transposeM next.Theta))) L.Hgrad)
    ∧ (hiddenHeadStep E L next).Ydiff
      = mulElem (matMul next.Ydiff (removeFirstCol (transposeM next.Theta))) L.Hgrad := by
  refine ⟨rfl, ?_⟩
  show lossGradM E "square" _ _ = _
  simp only [lossGradM, if_pos rfl]
  exact matSub_cancel _ _ hdim

/-- Concrete hidden-layer state for the C1 witness: `Ypred = [[9]]`,
incoming `Hgrad = [[7]]`. -/
def wLayerA : LayerM Unit := { emptyLayer with NextX1 := [[1, 9]], Hgrad := [[7]] }

/-- Concrete processed next-layer state for the C1 witness: delta `[[2]]`,
weights `[[5], [3]]`. -/
def wLayerB : LayerM Unit := { emptyLayer with Ydiff := [[2]], Theta := [[5], [3]] }

theorem hiddenHeadStep_delta_witness :
    (dims (mulElem (matMul wLayerB.Ydiff (removeFirstCol (transposeM wLayerB.Theta)))
        wLayerA.Hgrad) = dims (LayerM.Ypred wLayerA))
    ∧ ((hiddenHeadStep E1 wLayerA wLayerB).Ytrue
        = matSub (LayerM.Ypred wLayerA)
            (mulElem (matMul wLayerB.Ydiff (removeFirstCol (transposeM wLayerB.Theta)))
              wLayerA.Hgrad)
      ∧ (hiddenHeadStep E1 wLayerA wLayerB).Ydiff
        = mulElem (matMul wLayerB.Ydiff (removeFirstCol (transposeM wLayerB.Theta)))
            wLayerA.Hgrad) :=
  ⟨by with_unfolding_all decide, hiddenHeadStep_delta E1 wLayerA wLayerB (by with_unfolding_all decide)⟩

/-- C2.  At `Alpha = 1`, `L1Ratio = 1/2`, `nSamples = 1`, weights
`[[0], [2]]` (bias row, then one weight) and zero incoming gradient, the
code's regularization block adds `2` to the loss (matching the claim's
`Alpha·L1Ratio/n · |2| + Alpha·(1-L1Ratio)/(2n) · 2² = 1 + 1`) but adds
`Alpha/n · (sgn 2) + Alpha/n · 2 = 3` to the gradient entry, whereas the
claim's elastic-net gradient
`Alpha·L1Ratio/n · sgn 2 + Alpha·(1-L1Ratio)/n · 2 = 3/2`: the code omits
the `L1Ratio` and `1-L1Ratio` factors in the gradient terms. -/
theorem regularization_gradient_bug :
    regularizeLayer 1 (1/2) 1 0 [[0], [0]] [[0], [2]] = (2, [[0], [3]])
    ∧ matAdd [[0], [0]]
        (matAdd (scaleM (1 * (1/2) / 1) (matApplyQ sgnQ (firstRowZeroed [[0], [2]])))
          (scaleM (1 * (1 - 1/2) / 1) (firstRowZeroed [[0], [2]])))
      = [[0], [3/2]]
    ∧ ([[(0 : ℚ)], [3]] : Mat) ≠ [[0], [3/2]] := by with_unfolding_all decide

/-- C3.  `NewMLPClassifier([], "relu", "adam", 0)` configures `Loss = "log"`
(the classification loss every other code path consults), yet leaves the
separate `LossName` field at its zero value `""`; `allocLayers` tests
`LossName`, so the output layer keeps the hidden activation "relu" instead of
the logistic head the claim (and the constructor's stated purpose) requires. -/
theorem allocLayers_lossName_bug :
    (NewMLPClassifierM Unit [] "relu" "adam" 0).Loss = "log"
    ∧ (NewMLPClassifierM Unit [] "relu" "adam" 0).LossName = ""
    ∧ ((allocLayersM E1 (NewMLPClassifierM Unit [] "relu" "adam" 0) 1 1 ()).1.Layers.getD 0
        emptyLayer).Activation = "relu"
    ∧ ("relu" : String) ≠ "logistic" := by decide

/-- C4 (counterexample).  For `nSamples = 3` the code's default epoch count
`1e6 / nSamples` is the Go integer division `1000000 / 3 = 333333`, not the
ceiling `333334` the claim states. -/
theorem default_epochs_counterexample :
    defaultEpochs 3 = 333333 ∧ (333333 : ℕ) ≠ 333334 := by decide

/-- C5 (counterexample).  A complete `Fit` run of the `rShared` network
(`Epochs = 1`) on `X = [[1]]`, `Y = [[0]]`: the single - hence first - epoch
accumulates total loss 9 (retained in `J`), yet `JFirst` still holds its
initial 0, because `fitEpoch` only assigns `JFirst` when its zero-based epoch
index equals 1, i.e. on the second pass over the data. -/
theorem jfirst_counterexample :
    (fit E1 rShared [[1]] [[0]] ()).1.J = some 9
    ∧ (fit E1 rShared [[1]] [[0]] ()).1.JFirst = 0
    ∧ ((9 : ℚ) ≠ 0) := by with_unfolding_all decide

/-- Scaling a row multiplies its sum of squares by the square of the scalar. -/
theorem zip_mul_scale_sum (k : ℚ) (r : List ℚ) :
    (List.zipWith (fun x y => x * y) (r.map (fun x => k * x)) (r.map (fun x => k * x))).sum
      = k ^ 2 * (List.zipWith (fun x y => x * y) r r).sum := by
  induction r with
  | nil => simp
  | cons a t ih =>
    simp only [List.map_cons, List.zipWith_cons_cons, List.sum_cons, ih]
    ring

/-- Scaling a matrix multiplies its squared Frobenius norm by the square of
the scalar. -/
theorem sqnormQ_scale (k : ℚ) (A : Mat) : sqnormQ (scaleM k A) = k ^ 2 * sqnormQ A := by
  induction A with
  | nil => simp [sqnormQ, scaleM, matApplyQ, mulElem, matZip, matSumQ]
  | cons r rs ih =>
    simp only [sqnormQ, scaleM, matApplyQ, mulElem, matZip, matSumQ, List.map_cons,
      List.zipWith_cons_cons, List.sum_cons] at ih ⊢
    rw [zip_mul_scale_sum, ih]
    ring

/-- C6.  For a positive clip threshold `c` and the gradient's L2 norm `g`
(certified by `g ≥ 0` and `g² = Σ Grad²`, since the norm itself is
irrational in general): when the norm does not exceed the threshold the
clipping step is the identity on the gradient; when it exceeds it, the whole
matrix is rescaled by the single scalar `c/g` and the post-clip squared norm
is exactly `c²` (i.e. the post-clip L2 norm equals the threshold). -/
theorem clipGradient_spec (c g : ℚ) (G : Mat) (hc : 0 < c) (hg : 0 ≤ g)
    (hsq : g ^ 2 = sqnormQ G) :
    (g ≤ c → clipGradient c g G = G)
    ∧ (c < g → clipGradient c g G = scaleM (c / g) G
        ∧ sqnormQ (clipGradient c g G) = c ^ 2) := by
  constructor
  · intro hle
    simp [clipGradient, hc, not_lt.mpr hle]
  · intro hlt
    have he : clipGradient c g G = scaleM (c / g) G := by simp [clipGradient, hc, hlt]
    refine ⟨he, ?_⟩
    have hg0 : g ≠ 0 := ne_of_gt (lt_trans hc hlt)
    rw [he, sqnormQ_scale, ← hsq, div_pow]
    field_simp

theorem clipGradient_spec_witness :
    ((0 : ℚ) < 1 ∧ (0 : ℚ) ≤ 5 ∧ (5 : ℚ) ^ 2 = sqnormQ [[3, 4]])
    ∧ (((5 : ℚ) ≤ 1 → clipGradient 1 5 [[3, 4]] = [[3, 4]])
      ∧ ((1 : ℚ) < 5 → clipGradient 1 5 [[3, 4]] = scaleM (1/5) [[3, 4]]
          ∧ sqnormQ (clipGradient 1 5 [[3, 4]]) = 1 ^ 2)) :=
  ⟨⟨by norm_num, by norm_num, by with_unfolding_all decide⟩,
    clipGradient_spec 1 5 [[3, 4]] (by norm_num) (by norm_num) (by with_unfolding_all decide)⟩

/-- Row lookup commutes with the threshold map (out-of-range lookups return
the default 0 on both sides, and the threshold of 0 is 0). -/
theorem getD_map_thr (A : Mat) (i : ℕ) :
    (A.map (List.map thresholdQ)).getD i [] = List.map thresholdQ (A.getD i []) := by
  induction A generalizing i with
  | nil => simp
  | cons r rs ih =>
    cases i with
    | zero => rfl
    | succ n => simpa using ih n

/-- Entry lookup commutes with the threshold map. -/
theorem getD_map_thr_entry (r : List ℚ) (j : ℕ) :
    (r.map thresholdQ).getD j 0 = thresholdQ (r.getD j 0) := by
  induction r generalizing j with
  | nil =>
    simp [thresholdQ]
    norm_num
  | cons a t ih =>
    cases j with
    | zero => rfl
    | succ n => simpa using ih n

/-- C8.  Every entry the classifier's `Predict` writes is the 0.5 threshold
of the corresponding raw forward-pass (logistic) prediction - raw values
`>= 1/2`, including exactly `1/2`, map to 1, everything below to 0 - and in
particular every written entry is 0 or 1. -/
theorem classifierPredict_spec (E : Externals σ ρ) (regr : MLPRegressorM σ) (X : Mat)
    (i j : ℕ) :
    ((((MLPClassifierPredict E regr X).2.getD i []).getD j 0)
        = if (1 : ℚ)/2 ≤ (((predictZH E regr X).2.getD i []).getD j 0) then 1 else 0)
    ∧ ((((MLPClassifierPredict E regr X).2.getD i []).getD j 0) = 0
      ∨ (((MLPClassifierPredict E regr X).2.getD i []).getD j 0) = 1) := by
  have h1 : (MLPClassifierPredict E regr X).2
      = (predictZH E regr X).2.map (List.map thresholdQ) := rfl
  rw [h1, getD_map_thr, getD_map_thr_entry]
  constructor
  · rfl
  · unfold thresholdQ
    split
    · right; rfl
    · left; rfl

/-- The row dimensions of a `toMat` view: `r` rows of `c` entries. -/
theorem dims_toMat (r c : ℕ) (s : List ℚ) : dims (toMat r c s) = List.replicate r c := by
  simp only [dims, toMat, List.map_map, Function.comp]
  have : ∀ i : ℕ, (List.map (fun j => s.getD (i * c + j) 0) (List.range c)).length = c := by
    intro i; simp
  calc (List.range r).map (fun i => (List.map (fun j => s.getD (i * c + j) 0) (List.range c)).length)
      = (List.range r).map (fun _ => c) := by
        apply List.map_congr_left; intro i _; exact this i
    _ = List.replicate r c := by simp [List.map_const]

/-- Setting the head entry of every row preserves the row dimensions. -/
theorem dims_map_setOne (M : Mat) :
    dims (M.map (fun row => match row with | [] => ([] : List ℚ) | _ :: t => 1 :: t)) = dims M := by
  simp only [dims, List.map_map]
  apply List.map_congr_left
  intro r _
  cases r <;> rfl

/-- After setting the head entry of every nonempty row to 1, the column of
head entries is constantly 1. -/
theorem headD_map_setOne (M : Mat) (h : ∀ r ∈ M, r ≠ []) :
    (M.map (fun row => match row with | [] => ([] : List ℚ) | _ :: t => 1 :: t)).map
        (fun r => r.headD 0)
      = List.replicate M.length 1 := by
  induction M with
  | nil => rfl
  | cons r rs ih =>
    cases r with
    | nil => exact absurd rfl (h [] (by simp))
    | cons a t =>
      simp only [List.map_cons, List.headD_cons, List.length_cons, List.replicate_succ]
      rw [ih (fun x hx => h x (List.mem_cons_of_mem _ hx))]

/-- Rows of a `toMat` view with a positive column count are nonempty. -/
theorem toMat_rows_ne_nil (b c : ℕ) (hc : 0 < c) (s : List ℚ) :
    ∀ r ∈ toMat b c s, r ≠ [] := by
  intro r hr
  simp only [toMat, List.mem_map, List.mem_range] at hr
  obtain ⟨i, _, rfl⟩ := hr
  simp only [ne_eq, List.map_eq_nil_iff, List.range_eq_nil]
  omega

/-- C9.  After `initOutputs` with batch size `b` and output width `out` -
whatever the prior buffer contents - each of the scratch buffers `Ytrue`,
`Z`, `Ydiff`, `Hgrad` consists of exactly `b` rows of `out` entries, the
augmented-input buffer `NextX1` consists of `b` rows of `1 + out` entries,
and column 0 of `NextX1` is exactly 1 in every row. -/
theorem initOutputs_spec (L : LayerM σ) (b out : ℕ) (prev : Option Mat) :
    dims (initOutputs L b out prev).Ytrue = List.replicate b out
    ∧ dims (initOutputs L b out prev).Z = List.replicate b out
    ∧ dims (initOutputs L b out prev).Ydiff = List.replicate b out
    ∧ dims (initOutputs L b out prev).Hgrad = List.replicate b out
    ∧ dims (initOutputs L b out prev).NextX1 = List.replicate b (1 + out)
    ∧ (initOutputs L b out prev).NextX1.map (fun r => r.headD 0) = List.replicate b 1 := by
  refine ⟨dims_toMat _ _ _, dims_toMat _ _ _, dims_toMat _ _ _, dims_toMat _ _ _, ?_, ?_⟩
  · show dims (List.map _ (toMat b (1 + out) _)) = _
    rw [dims_map_setOne, dims_toMat]
  · show (List.map _ (toMat b (1 + out) _)).map _ = _
    rw [headD_map_setOne _ (toMat_rows_ne_nil b (1 + out) (by omega) _)]
    simp [toMat]

/-- C10.  `Score` overwrites the caller's `Y` with the network's predictions
for `X` (the matrix `Predict`/`predictZH` writes into its second argument),
and the delegated metric - `R2Score` when the configured loss is "square",
`AccuracyScore` otherwise - receives as its prediction argument the freshly
allocated all-zero `nSamples × nOutputs` matrix, which the forward pass never
wrote into. -/
theorem score_spec (E : Externals σ ρ) (regr : MLPRegressorM σ) (X Y : Mat) :
    (ScoreM E regr X Y).2.1 = (predictZH E regr X).2
    ∧ (ScoreM E regr X Y).2.2
      = (if regr.Loss = "square" then E.r2 else E.acc) (predictZH E regr X).2
          (zeroMat Y.length (Y.headD []).length) :=
  ⟨rfl, rfl⟩

/-- `predictZH` only rewrites the layer stack: every configuration field of
the regressor survives the forward pass. -/
theorem predictZH_alpha (E : Externals σ ρ) (regr : MLPRegressorM σ) (X : Mat) :
    (predictZH E regr X).1.Alpha = regr.Alpha := rfl

/-- `fitMiniBatch` preserves the `Alpha` configuration field. -/
theorem fitMiniBatchG_alpha (f : ℚ → ℚ → ℕ → ℚ → Mat → Mat → ℚ × Mat) (E : Externals σ ρ)
    (regr : MLPRegressorM σ) (Xm Ym : Mat) (e l n : ℕ) :
    (fitMiniBatchG f E regr Xm Ym e l n).1.Alpha = regr.Alpha := rfl

/-- `fitMiniBatch` preserves the `Epochs` configuration field. -/
theorem fitMiniBatchG_epochs (f : ℚ → ℚ → ℕ → ℚ → Mat → Mat → ℚ × Mat) (E : Externals σ ρ)
    (regr : MLPRegressorM σ) (Xm Ym : Mat) (e l n : ℕ) :
    (fitMiniBatchG f E regr Xm Ym e l n).1.Epochs = regr.Epochs := rfl

/-- `fitMiniBatch` preserves the `JFirst` field. -/
theorem fitMiniBatchG_jfirst (f : ℚ → ℚ → ℕ → ℚ → Mat → Mat → ℚ × Mat) (E : Externals σ ρ)
    (regr : MLPRegressorM σ) (Xm Ym : Mat) (e l n : ℕ) :
    (fitMiniBatchG f E regr Xm Ym e l n).1.JFirst = regr.JFirst := rfl

/-- Any regressor projection preserved by `fitMiniBatch` is preserved by the
whole minibatch window loop. -/
theorem fitBatchesG_proj {α : Type _} (f : ℚ → ℚ → ℕ → ℚ → Mat → Mat → ℚ × Mat)
    (E : Externals σ ρ) (Xf Yf : Mat) (ep n : ℕ) (g : MLPRegressorM σ → α)
    (hg : ∀ (r : MLPRegressorM σ) (Xm Ym : Mat) (len : ℕ),
      g ((fitMiniBatchG f E r Xm Ym ep len n).1) = g r) :
    ∀ (fuel start e : ℕ) (st : MLPRegressorM σ × ℚ),
      g ((fitBatchesG f E Xf Yf ep n fuel start e st).1) = g st.1 := by
  intro fuel
  induction fuel with
  | zero => intro start e st; rfl
  | succ k ih =>
    intro start e st
    simp only [fitBatchesG]
    split
    · rw [ih]
      exact hg st.1 _ _ _
    · rfl

/-- `fitEpoch` preserves the `Alpha` configuration field. -/
theorem fitEpochG_alpha (f : ℚ → ℚ → ℕ → ℚ → Mat → Mat → ℚ × Mat) (E : Externals σ ρ)
    (regr : MLPRegressorM σ) (Xf Yf : Mat) (r0 : ρ) (ep : ℕ) :
    (fitEpochG f E regr Xf Yf r0 ep).1.Alpha = regr.Alpha := by
  simp only [fitEpochG]
  split <;> exact fitBatchesG_proj f E _ _ ep _ (fun r => r.Alpha)
    (fun r Xm Ym len => fitMiniBatchG_alpha f E r Xm Ym ep len _) _ _ _ _

/-- `fitEpoch` preserves the `Epochs` configuration field. -/
theorem fitEpochG_epochs (f : ℚ → ℚ → ℕ → ℚ → Mat → Mat → ℚ × Mat) (E : Externals σ ρ)
    (regr : MLPRegressorM σ) (Xf Yf : Mat) (r0 : ρ) (ep : ℕ) :
    (fitEpochG f E regr Xf Yf r0 ep).1.Epochs = regr.Epochs := by
  simp only [fitEpochG]
  split <;> exact fitBatchesG_proj f E _ _ ep _ (fun r => r.Epochs)
    (fun r Xm Ym len => fitMiniBatchG_epochs f E r Xm Ym ep len _) _ _ _ _

/-- A projection preserved by each fold step is preserved by the fold. -/
theorem foldl_proj {β : Type _} {γ : Type _} (step : β → ℕ → β) (g : β → γ)
    (hg : ∀ (b : β) (i : ℕ), g (step b i) = g b) :
    ∀ (l : List ℕ) (b : β), g (l.foldl step b) = g b := by
  intro l
  induction l with
  | nil => intro b; rfl
  | cons i t ih => intro b; rw [List.foldl_cons, ih, hg]

/-- C4 (amended).  When the configured epoch count is unset or non-positive,
`Fit` on a non-empty training set runs `⌊1_000_000 / nSamples⌋` epochs - the
Go integer division truncates, it does not round up - recorded in the
`Epochs` field that bounds the epoch loop. -/
theorem fit_default_epochs (E : Externals σ ρ) (regr : MLPRegressorM σ) (X Y : Mat)
    (r0 : ρ) (hE : regr.Epochs ≤ 0) (hn : 0 < X.length) :
    (fit E regr X Y r0).1.Epochs = (defaultEpochs X.length : ℤ) := by
  simp only [fit, fitG]
  refine (foldl_proj _ (fun st : MLPRegressorM σ × Mat × Mat × ρ => st.1.Epochs)
    (fun b i => fitEpochG_epochs regularizeLayer E b.1 b.2.1 b.2.2.1 b.2.2.2 i) _ _).trans ?_
  split
  · rfl
  · rename_i h
    exact absurd hE h

/-- The `rShared` network with the epoch count left unset. -/
def rEpochsUnset : MLPRegressorM Unit := { rShared with Epochs := 0 }

theorem fit_default_epochs_witness :
    (rEpochsUnset.Epochs ≤ 0 ∧ 0 < ([[1], [2], [3]] : Mat).length)
    ∧ (fit E1 rEpochsUnset [[1], [2], [3]] [[0], [0], [0]] ()).1.Epochs
      = (defaultEpochs ([[1], [2], [3]] : Mat).length : ℤ) :=
  ⟨⟨by decide, by decide⟩,
    fit_default_epochs E1 rEpochsUnset [[1], [2], [3]] [[0], [0], [0]] () (by decide) (by decide)⟩

/-- C5 (amended).  `fitEpoch` stores the epoch's summed loss in `J`, and
copies it into `JFirst` exactly when the zero-based epoch index is 1 - the
second full pass over the training data - leaving `JFirst` untouched in every
other epoch (so a fit of fewer than two epochs never writes it). -/
theorem fitEpoch_jfirst (E : Externals σ ρ) (regr : MLPRegressorM σ) (Xf Yf : Mat)
    (r0 : ρ) (epoch : ℕ) :
    (fitEpochM E regr Xf Yf r0 epoch).1.JFirst
      = if epoch = 1 then ((fitEpochM E regr Xf Yf r0 epoch).1.J).getD regr.JFirst
        else regr.JFirst := by
  simp only [fitEpochM, fitEpochG]
  split
  · rfl
  · exact fitBatchesG_proj regularizeLayer E _ _ epoch _ (fun r => r.JFirst)
      (fun r Xm Ym len => fitMiniBatchG_jfirst regularizeLayer E r Xm Ym epoch len _) _ _ _ _

/-- The regularization block is the identity when `Alpha = 0`. -/
theorem regularizeLayer_zero (l1 : ℚ) (n : ℕ) (J : ℚ) (G T : Mat) :
    regularizeLayer 0 l1 n J G T = (J, G) := by
  simp [regularizeLayer]

/-- With `Alpha = 0` the per-layer tail computes the same result whether the
regularization block is present or removed. -/
theorem layerTailG_zero (E : Externals σ ρ) (regr : MLPRegressorM σ) (n : ℕ) (Xl : Mat)
    (L : LayerM σ) (J : ℚ) (hA : regr.Alpha = 0) :
    layerTailG regularizeLayer E regr n Xl L J = layerTailG regFnSkip E regr n Xl L J := by
  simp only [layerTailG, hA, regularizeLayer_zero, regFnSkip]

/-- With `Alpha = 0` the reverse layer loop computes the same result whether
the regularization block is present or removed. -/
theorem backRecG_zero (E : Externals σ ρ) (regr : MLPRegressorM σ) (n no : ℕ) (mb : ℚ)
    (Y : Mat) (hA : regr.Alpha = 0) :
    ∀ (ls : List (LayerM σ)) (Xl : Mat),
      backRecG regularizeLayer E regr n no mb Y Xl ls
        = backRecG regFnSkip E regr n no mb Y Xl ls := by
  intro ls
  induction ls with
  | nil => intro Xl; rfl
  | cons L rest ih =>
    intro Xl
    cases rest with
    | nil =>
      simp only [backRecG]
      rw [layerTailG_zero E regr n Xl _ _ hA]
    | cons L2 t =>
      simp only [backRecG]
      rw [ih (LayerM.Ypred L)]
      cases (backRecG regFnSkip E regr n no mb Y (LayerM.Ypred L) (L2 :: t)).1 with
      | nil => rfl
      | cons next rest2 =>
        dsimp only
        rw [layerTailG_zero E regr n Xl _ _ hA]

/-- With `Alpha = 0` `backprop` computes the same result whether the
regularization block is present or removed. -/
theorem backpropG_zero (E : Externals σ ρ) (regr : MLPRegressorM σ) (X Y : Mat)
    (e l n : ℕ) (hA : regr.Alpha = 0) :
    backpropG regularizeLayer E regr X Y e l n = backpropG regFnSkip E regr X Y e l n := by
  simp only [backpropG]
  rw [backRecG_zero E regr _ _ _ _ hA]

/-- With `Alpha = 0` `fitMiniBatch` computes the same result whether the
regularization block is present or removed. -/
theorem fitMiniBatchG_zero (E : Externals σ ρ) (regr : MLPRegressorM σ) (Xm Ym : Mat)
    (e l n : ℕ) (hA : regr.Alpha = 0) :
    fitMiniBatchG regularizeLayer E regr Xm Ym e l n
      = fitMiniBatchG regFnSkip E regr Xm Ym e l n := by
  simp only [fitMiniBatchG]
  exact backpropG_zero E _ Xm Ym e l n ((predictZH_alpha E regr Xm).trans hA)

/-- With `Alpha = 0` the minibatch window loop computes the same result
whether the regularization block is present or removed. -/
theorem fitBatchesG_zero (E : Externals σ ρ) (Xf Yf : Mat) (ep n : ℕ) :
    ∀ (fuel start e : ℕ) (st : MLPRegressorM σ × ℚ), st.1.Alpha = 0 →
      fitBatchesG regularizeLayer E Xf Yf ep n fuel start e st
        = fitBatchesG regFnSkip E Xf Yf ep n fuel start e st := by
  intro fuel
  induction fuel with
  | zero => intro start e st h; rfl
  | succ k ih =>
    intro start e st h
    simp only [fitBatchesG]
    split
    · rw [fitMiniBatchG_zero E st.1 _ _ ep _ n h]
      exact ih _ _ _ ((fitMiniBatchG_alpha regFnSkip E st.1 _ _ ep _ n).trans h)
    · rfl

/-- With `Alpha = 0` `fitEpoch` computes the same result whether the
regularization block is present or removed. -/
theorem fitEpochG_zero (E : Externals σ ρ) (regr : MLPRegressorM σ) (Xf Yf : Mat)
    (r0 : ρ) (ep : ℕ) (hA : regr.Alpha = 0) :
    fitEpochG regularizeLayer E regr Xf Yf r0 ep = fitEpochG regFnSkip E regr Xf Yf r0 ep := by
  simp only [fitEpochG]
  rw [fitBatchesG_zero E _ _ ep _ _ _ _ _ hA]

/-- Folding two step functions that agree on - and preserve - an invariant
produces equal results from any state satisfying it. -/
theorem foldl_congr_inv {β : Type _} (P : β → Prop) (s t : β → ℕ → β)
    (hst : ∀ (b : β) (i : ℕ), P b → s b i = t b i)
    (hp : ∀ (b : β) (i : ℕ), P b → P (s b i)) :
    ∀ (l : List ℕ) (b : β), P b → l.foldl s b = l.foldl t b := by
  intro l
  induction l with
  | nil => intro b _; rfl
  | cons i ttl ih =>
    intro b hb
    rw [List.foldl_cons, List.foldl_cons, ← hst b i hb]
    exact ih (s b i) (hp b i hb)

/-- C7.  With `Alpha = 0` a complete training run - same data, same random
stream, same configuration otherwise - produces a final state (weights,
buffers, optimizer states, losses and the permuted data) identical to a run
of `fitNoReg`, in which the regularization code path is entirely removed and
no regularization term is ever added to the loss `J` or to any layer's
gradient. -/
theorem fit_alpha_zero_skip_reg (E : Externals σ ρ) (regr : MLPRegressorM σ) (X Y : Mat)
    (r0 : ρ) (hA : regr.Alpha = 0) :
    fit E regr X Y r0 = fitNoReg E regr X Y r0 := by
  simp only [fit, fitNoReg, fitG]
  apply foldl_congr_inv (fun st => st.1.Alpha = 0)
  · intro b i hb
    exact fitEpochG_zero E b.1 b.2.1 b.2.2.1 b.2.2.2 i hb
  · intro b i hb
    exact (fitEpochG_alpha regularizeLayer E b.1 b.2.1 b.2.2.1 b.2.2.2 i).trans hb
  · show (if _ then _ else _ : MLPRegressorM σ).Alpha = 0
    split <;> exact hA

theorem fit_alpha_zero_skip_reg_witness :
    rShared.Alpha = 0
    ∧ fit E1 rShared [[1]] [[0]] () = fitNoReg E1 rShared [[1]] [[0]] () :=
  ⟨rfl, fit_alpha_zero_skip_reg E1 rShared [[1]] [[0]] () rfl⟩

end NN
